import Mathlib

/-!
Verification development for the CTAD protocol repository.

The repository is a record-keeping web application: a declaration ledger
(`src/lib/actions.ts`), a contribution reward engine
(`src/lib/process-utils.ts`), and an ingestion endpoint
(`src/app/api/process-declaration/route.ts`).  This file gives a shallow
embedding of those operations and proves the spec's claims about them.

Modelling conventions:
* JS numbers carrying scores are embedded as `ℚ` (all arithmetic in the
  source stays inside small exact decimals); point totals are `ℤ`.
* `Math.round` is `fun q => ⌊q + 1/2⌋` (round half toward positive infinity).
* Persistent tables (Prisma) become association lists inside explicit
  state records; `create` appends, `update` maps over the list.
* Generated row ids and `now()` timestamps are passed in as parameters.
* JS truthiness on optional strings / numbers is made explicit
  (`strTruthy`, `numTruthy`): `undefined`, `""` and `0` are falsy.
-/

namespace CTAD

/-- Model of `Math.round` in JavaScript: halves round toward positive infinity. -/
def jsRound (q : ℚ) : ℤ := ⌊q + 1/2⌋

/-- Model of `String.prototype.toLowerCase` (the source only compares ASCII
keys); written over the character list so that it reduces in the kernel. -/
def jsToLower (s : String) : String := String.mk (s.data.map Char.toLower)

/-- Model of `String.prototype.toUpperCase` (used by `tierToPrismaEnum`). -/
def jsToUpper (s : String) : String := String.mk (s.data.map Char.toUpper)

/-- Model of `String.prototype.trim`: strip whitespace from both ends,
written over the character list so that it reduces in the kernel. -/
def jsTrim (s : String) : String :=
  String.mk (((s.data.dropWhile Char.isWhitespace).reverse.dropWhile
    Char.isWhitespace).reverse)

/-- JS truthiness of an optional string: `undefined`/`null` and `""` are falsy. -/
def strTruthy : Option String → Bool
  | none => false
  | some s => s ≠ ""

/-- JS truthiness of an optional number: `undefined`/`null` and `0` are falsy. -/
def numTruthy : Option ℤ → Bool
  | none => false
  | some d => d ≠ 0

/-- Model of `x?.trim()` being blank/absent, i.e. the test `!x?.trim()`. -/
def blankOpt : Option String → Bool
  | none => true
  | some s => jsTrim s = ""

/-- Model of `x?.trim() || null`: blank-after-trim collapses to null. -/
def normOpt : Option String → Option String
  | none => none
  | some s => if jsTrim s = "" then none else some (jsTrim s)

/-- Model of `v || d` on an optional number (`undefined`/`null` and `0` are falsy). -/
def jsOrDefault (o : Option ℚ) (d : ℚ) : ℚ :=
  match o with
  | none => d
  | some v => if v = 0 then d else v

/-! ## Reward-engine data (`src/lib/process-utils.ts`, `src/lib/types/process.ts`) -/

/-- One entry of a tier table: `{ min, max }`, `max := none` encoding `Infinity`. -/
structure TierRange where
  min : ℤ
  max : Option ℤ
  deriving Repr, DecidableEq

/-- The record type of `TIER_THRESHOLDS_LOCAL`. -/
structure TierThresholds where
  explorer : TierRange
  curator : TierRange
  tastemaker : TierRange
  oracle : TierRange
  deriving Repr, DecidableEq

/-- `TIER_THRESHOLDS_LOCAL` from `process-utils.ts`. -/
def TIER_THRESHOLDS_LOCAL : TierThresholds :=
  { explorer := ⟨0, some 99⟩
    curator := ⟨100, some 499⟩
    tastemaker := ⟨500, some 1999⟩
    oracle := ⟨2000, none⟩ }

/-- `PLATFORM_RARITY_LOCAL` from `process-utils.ts`, in source order. -/
def PLATFORM_RARITY_LOCAL : List (String × ℚ) :=
  [ ("MIDJOURNEY", 0.8)
  , ("CHATGPT", 0.7)
  , ("DALLE", 0.9)
  , ("STABLE_DIFFUSION", 1.0)
  , ("SUNO", 1.2)
  , ("UDIO", 1.3)
  , ("RUNWAY", 1.4)
  , ("PIKA", 1.5)
  , ("HIGGSFIELD", 1.8)
  , ("FLUX", 1.3)
  , ("LEONARDO", 1.1)
  , ("CLAUDE", 0.9)
  , ("UNKNOWN", 1.0) ]

/-- The `platformMap` object literal inside `mapPlatformToEnum`. -/
def platformMap : List (String × String) :=
  [ ("midjourney", "MIDJOURNEY")
  , ("suno", "SUNO")
  , ("udio", "UDIO")
  , ("runway", "RUNWAY")
  , ("pika", "PIKA")
  , ("dalle", "DALLE")
  , ("flux", "FLUX")
  , ("leonardo", "LEONARDO")
  , ("stable-diffusion", "STABLE_DIFFUSION")
  , ("higgsfield", "HIGGSFIELD")
  , ("chatgpt", "CHATGPT")
  , ("claude", "CLAUDE") ]

/-- `mapPlatformToEnum` from `process-utils.ts`:
`platformMap[platform.toLowerCase()] || 'UNKNOWN'` (map values are all truthy). -/
def mapPlatformToEnum (platform : String) : String :=
  match platformMap.find? (fun p => p.1 == jsToLower platform) with
  | some p => p.2
  | none => "UNKNOWN"

/-- `calculateTier` from `process-utils.ts` (tiers kept as the source's strings). -/
def calculateTier (totalPoints : ℤ) : String :=
  if totalPoints ≥ TIER_THRESHOLDS_LOCAL.oracle.min then "oracle"
  else if totalPoints ≥ TIER_THRESHOLDS_LOCAL.tastemaker.min then "tastemaker"
  else if totalPoints ≥ TIER_THRESHOLDS_LOCAL.curator.min then "curator"
  else "explorer"

/-- `tierToPrismaEnum` from `process-utils.ts`. -/
def tierToPrismaEnum (tier : String) : String := jsToUpper tier

/-- `PromptVersion` from `types/process.ts` (metadata omitted, unused by the core). -/
structure PromptVersion where
  id : String
  content : String
  timestamp : String
  parentId : Option String
  mode : String
  platform : String
  deriving Repr, DecidableEq

/-- `RejectedOutput` from `types/process.ts`. -/
structure RejectedOutput where
  id : String
  promptVersionId : String
  timestamp : String
  reason : Option String
  customFeedback : Option String
  deriving Repr, DecidableEq

/-- `SelectedOutput` from `types/process.ts`. -/
structure SelectedOutput where
  id : String
  promptVersionId : String
  timestamp : String
  likeReason : Option String
  customFeedback : Option String
  outputHash : Option String
  deriving Repr, DecidableEq

/-- `ProcessDeclarationInput` from `types/process.ts`. -/
structure ProcessDeclarationInput where
  platform : String
  sessionStartedAt : String
  sessionEndedAt : Option String
  sessionDuration : Option ℤ
  iterationCount : Option ℕ
  promptLineage : List PromptVersion
  rejectedOutputs : List RejectedOutput
  selectedOutput : Option SelectedOutput
  consentForTrainingData : Bool
  consentTimestamp : Option String
  consentVersion : Option String
  contributorId : Option String
  expertiseTags : Option (List String)
  deriving Repr, DecidableEq

/-- Per-platform statistics entry stored on a contributor. -/
structure PlatformStat where
  contributions : ℕ
  accuracy : ℚ
  deriving Repr, DecidableEq

/-- A `Contributor` row. -/
structure Contributor where
  anonymousId : String
  totalContributions : ℕ
  totalPoints : ℤ
  currentTier : String
  tasteScore : ℚ
  expertiseTags : List String
  platformStats : List (String × PlatformStat)
  consentVersion : Option String
  consentTimestamp : Option String
  deriving Repr, DecidableEq

/-- `ContributorReward` returned by `calculateContributionReward`. -/
structure ContributorReward where
  pointsEarned : ℤ
  newTotal : ℤ
  tierChange : Option (String × String)
  qualityMultiplier : ℚ
  rarityBonus : ℚ
  deriving Repr, DecidableEq

/-- The base-point accumulation of `calculateContributionReward`, line for line. -/
def calcBasePoints (input : ProcessDeclarationInput) : ℕ :=
  let b0 : ℕ := 10
  let b1 := b0 + min (input.promptLineage.length * 2) 20
  let b2 := b1 + min (input.rejectedOutputs.length * 3) 30
  let b3 :=
    match input.selectedOutput with
    | some sel =>
        b2 + 10 + (if strTruthy sel.likeReason then 5 else 0)
          + (if strTruthy sel.customFeedback then 10 else 0)
    | none => b2
  let b4 :=
    if numTruthy input.sessionDuration then
      let minutes : ℚ := (input.sessionDuration.getD 0 : ℤ) / 60
      if minutes ≥ 15 then b3 + 10
      else if minutes ≥ 5 then b3 + 5
      else if minutes ≥ 2 then b3 + 2
      else b3
    else b3
  if (input.expertiseTags.getD []).length > 0 then
    b4 + min ((input.expertiseTags.getD []).length * 2) 6
  else b4

/-- JS `Set` construction plus insertion: dedup keeping first occurrence. -/
def insertUniq (l : List String) (t : String) : List String :=
  if t ∈ l then l else l ++ [t]

/-- The expertise-tag merge in `calculateContributionReward`
(`new Set(old)` then `forEach add` over the new tags). -/
def mergeTags (old new : List String) : List String :=
  new.foldl insertUniq (old.foldl insertUniq [])

/-- The platform-stats update in `calculateContributionReward`: insert a
fresh `{contributions: 0, accuracy: 0.5}` when the key is absent, then
increment its contribution count. -/
def bumpPlatform (stats : List (String × PlatformStat)) (key : String) :
    List (String × PlatformStat) :=
  match stats.find? (fun p => p.1 == key) with
  | some _ =>
      stats.map (fun p =>
        if p.1 == key then (p.1, { p.2 with contributions := p.2.contributions + 1 }) else p)
  | none => stats ++ [(key, ⟨0 + 1, 0.5⟩)]

/-- The fresh contributor row created lazily by `calculateContributionReward`. -/
def freshContributor (contributorId : String) (input : ProcessDeclarationInput) :
    Contributor :=
  { anonymousId := contributorId
    totalContributions := 0
    totalPoints := 0
    currentTier := "EXPLORER"
    tasteScore := 0.5
    expertiseTags := input.expertiseTags.getD []
    platformStats := []
    consentVersion := none
    consentTimestamp := none }

/-- `calculateContributionReward` from `process-utils.ts`, as a pure state
transformer over the contributor table. -/
def calculateContributionReward (contributorId : String)
    (input : ProcessDeclarationInput) (db : List Contributor) :
    ContributorReward × List Contributor :=
  let basePoints := calcBasePoints input
  let found := db.find? (fun c => c.anonymousId == contributorId)
  let contributor := found.getD (freshContributor contributorId input)
  let db1 := if found.isSome then db else db ++ [freshContributor contributorId input]
  let qualityMultiplier : ℚ := 0.5 + contributor.tasteScore
  let platformEnum := mapPlatformToEnum input.platform
  let rarityBonus :=
    jsOrDefault ((PLATFORM_RARITY_LOCAL.find? (fun p => p.1 == platformEnum)).map (·.2)) 1.0
  let pointsEarned := jsRound ((basePoints : ℚ) * qualityMultiplier * rarityBonus)
  let newTotal := contributor.totalPoints + pointsEarned
  let previousTier := jsToLower contributor.currentTier
  let newTier := calculateTier newTotal
  let tierChanged := newTier ≠ previousTier
  let mergedTags := mergeTags contributor.expertiseTags (input.expertiseTags.getD [])
  let stats := bumpPlatform contributor.platformStats (jsToLower input.platform)
  let updated : Contributor :=
    { contributor with
        totalContributions := contributor.totalContributions + 1
        totalPoints := newTotal
        currentTier := tierToPrismaEnum newTier
        expertiseTags := mergedTags
        platformStats := stats
        consentVersion :=
          match input.consentVersion with
          | some v => some v
          | none => contributor.consentVersion
        consentTimestamp :=
          if strTruthy input.consentTimestamp then input.consentTimestamp
          else contributor.consentTimestamp }
  let db2 := db1.map (fun c => if c.anonymousId == contributorId then updated else c)
  ({ pointsEarned := pointsEarned
     newTotal := newTotal
     tierChange := if tierChanged then some (previousTier, newTier) else none
     qualityMultiplier := qualityMultiplier
     rarityBonus := rarityBonus }, db2)

/-- The `ValidationResult` record from `process-utils.ts`. -/
structure ValidationResult where
  valid : Bool
  error : Option String
  deriving Repr, DecidableEq

/-- First invalid prompt-lineage entry, with its error message (the loop in
`validateProcessInput`; the required-field tests are JS truthiness). -/
def checkLineage : ℕ → List PromptVersion → Option String
  | _, [] => none
  | i, v :: rest =>
      if v.id = "" ∨ v.content = "" ∨ v.timestamp = "" ∨ v.mode = "" then
        some ("Invalid prompt version at index " ++ toString i ++
          ": missing required fields (id, content, timestamp, mode)")
      else checkLineage (i + 1) rest

/-- First invalid rejected-output entry, with its error message. -/
def checkRejections : ℕ → List RejectedOutput → Option String
  | _, [] => none
  | i, r :: rest =>
      if r.id = "" ∨ r.promptVersionId = "" ∨ r.timestamp = "" then
        some ("Invalid rejected output at index " ++ toString i ++
          ": missing required fields (id, promptVersionId, timestamp)")
      else checkRejections (i + 1) rest

/-- `validateProcessInput` from `process-utils.ts`.  `dateOk` stands for the
external `new Date(s)` parser (`!isNaN(new Date(s).getTime())`); the two
`Array.isArray` tests always pass in this typed embedding. -/
def validateProcessInput (dateOk : String → Bool) (input : ProcessDeclarationInput) :
    ValidationResult :=
  if input.platform = "" then ⟨false, some "Platform is required"⟩
  else if input.sessionStartedAt = "" then ⟨false, some "Session start time is required"⟩
  else if ¬ dateOk input.sessionStartedAt then
    ⟨false, some "Invalid session start time format (expected ISO 8601)"⟩
  else
    match checkLineage 0 input.promptLineage with
    | some m => ⟨false, some m⟩
    | none =>
      match checkRejections 0 input.rejectedOutputs with
      | some m => ⟨false, some m⟩
      | none =>
        match input.selectedOutput with
        | some sel =>
            if sel.id = "" ∨ sel.promptVersionId = "" ∨ sel.timestamp = "" then
              ⟨false, some "Invalid selected output: missing required fields (id, promptVersionId, timestamp)"⟩
            else if input.consentForTrainingData ∧ ¬ strTruthy input.consentTimestamp then
              ⟨false, some "Consent timestamp required when consent is given"⟩
            else ⟨true, none⟩
        | none =>
            if input.consentForTrainingData ∧ ¬ strTruthy input.consentTimestamp then
              ⟨false, some "Consent timestamp required when consent is given"⟩
            else ⟨true, none⟩

/-! ## SHA-256 (`computeSha256` in `src/lib/actions.ts` delegates to
`crypto.createHash('sha256')`; the algorithm is embedded here in full,
over lists of bytes, with words as naturals reduced mod `2^32`). -/

/-- Truncate to a 32-bit word. -/
def w32 (n : ℕ) : ℕ := n % 4294967296

/-- 32-bit right rotation. -/
def rotr (k n : ℕ) : ℕ := w32 ((n >>> k) ||| (n <<< (32 - k)))

/-- SHA-256 choice function (`~e` is the 32-bit complement). -/
def shaCh (e f g : ℕ) : ℕ := (e &&& f) ^^^ ((e ^^^ 4294967295) &&& g)

/-- SHA-256 majority function. -/
def shaMaj (a b c : ℕ) : ℕ := (a &&& b) ^^^ (a &&& c) ^^^ (b &&& c)

/-- SHA-256 big sigma 0. -/
def bigSigma0 (x : ℕ) : ℕ := rotr 2 x ^^^ rotr 13 x ^^^ rotr 22 x

/-- SHA-256 big sigma 1. -/
def bigSigma1 (x : ℕ) : ℕ := rotr 6 x ^^^ rotr 11 x ^^^ rotr 25 x

/-- SHA-256 small sigma 0. -/
def smallSigma0 (x : ℕ) : ℕ := rotr 7 x ^^^ rotr 18 x ^^^ (x >>> 3)

/-- SHA-256 small sigma 1. -/
def smallSigma1 (x : ℕ) : ℕ := rotr 17 x ^^^ rotr 19 x ^^^ (x >>> 10)

/-- The 64 SHA-256 round constants. -/
def K256 : List ℕ :=
  [ 1116352408, 1899447441, 3049323471, 3921009573, 961987163,
    1508970993, 2453635748, 2870763221, 3624381080, 310598401,
    607225278, 1426881987, 1925078388, 2162078206, 2614888103,
    3248222580, 3835390401, 4022224774, 264347078, 604807628,
    770255983, 1249150122, 1555081692, 1996064986, 2554220882,
    2821834349, 2952996808, 3210313671, 3336571891, 3584528711,
    113926993, 338241895, 666307205, 773529912, 1294757372,
    1396182291, 1695183700, 1986661051, 2177026350, 2456956037,
    2730485921, 2820302411, 3259730800, 3345764771, 3516065817,
    3600352804, 4094571909, 275423344, 430227734, 506948616,
    659060556, 883997877, 958139571, 1322822218, 1537002063,
    1747873779, 1955562222, 2024104815, 2227730452, 2361852424,
    2428436474, 2756734187, 3204031479, 3329325298 ]

/-- Eight 32-bit words: both the running hash value and the round state. -/
structure Hash8 where
  h0 : ℕ
  h1 : ℕ
  h2 : ℕ
  h3 : ℕ
  h4 : ℕ
  h5 : ℕ
  h6 : ℕ
  h7 : ℕ
  deriving Repr, DecidableEq

/-- The SHA-256 initial hash value. -/
def initH : Hash8 :=
  ⟨1779033703, 3144134277, 1013904242, 2773480762,
   1359893119, 2600822924, 528734635, 1541459225⟩

/-- Chunk splitting, structurally recursive on a fuel bound. -/
def chunksAux (n : ℕ) : ℕ → List ℕ → List (List ℕ)
  | 0, _ => []
  | _, [] => []
  | fuel + 1, l => l.take (n + 1) :: chunksAux n fuel (l.drop (n + 1))

/-- Split a list into chunks of `n + 1` elements (the last may be shorter).
`l.length` steps of fuel always suffice since each step drops at least one
element of a nonempty list. -/
def chunks (n : ℕ) (l : List ℕ) : List (List ℕ) := chunksAux n l.length l

/-- Big-endian bytes to 32-bit words. -/
def bytesToWords (block : List ℕ) : List ℕ :=
  (chunks 3 block).map (fun b =>
    b.getD 0 0 * 16777216 + b.getD 1 0 * 65536 + b.getD 2 0 * 256 + b.getD 3 0)

/-- The next word of the SHA-256 message schedule. -/
def nextW (w : List ℕ) : ℕ :=
  w32 (smallSigma1 (w.getD (w.length - 2) 0) + w.getD (w.length - 7) 0
    + smallSigma0 (w.getD (w.length - 15) 0) + w.getD (w.length - 16) 0)

/-- Extend the 16 block words to the 64-entry message schedule. -/
def schedule (w16 : List ℕ) : List ℕ :=
  (List.range 48).foldl (fun w _ => w ++ [nextW w]) w16

/-- One SHA-256 compression round. -/
def shaRound (s : Hash8) (kw : ℕ × ℕ) : Hash8 :=
  let t1 := w32 (s.h7 + bigSigma1 s.h4 + shaCh s.h4 s.h5 s.h6 + kw.1 + kw.2)
  let t2 := w32 (bigSigma0 s.h0 + shaMaj s.h0 s.h1 s.h2)
  ⟨w32 (t1 + t2), s.h0, s.h1, s.h2, w32 (s.h3 + t1), s.h4, s.h5, s.h6⟩

/-- Compress one 64-byte block into the running hash value. -/
def compress (H : Hash8) (block : List ℕ) : Hash8 :=
  let W := schedule (bytesToWords block)
  let f := (K256.zip W).foldl shaRound H
  ⟨w32 (H.h0 + f.h0), w32 (H.h1 + f.h1), w32 (H.h2 + f.h2), w32 (H.h3 + f.h3),
   w32 (H.h4 + f.h4), w32 (H.h5 + f.h5), w32 (H.h6 + f.h6), w32 (H.h7 + f.h7)⟩

/-- SHA-256 padding: `0x80`, zeros, then the 64-bit big-endian bit length. -/
def padMsg (msg : List ℕ) : List ℕ :=
  let bitLen := msg.length * 8
  let padZeros := (64 + 56 - ((msg.length + 1) % 64)) % 64
  msg ++ [128] ++ List.replicate padZeros 0
    ++ [ (bitLen >>> 56) % 256, (bitLen >>> 48) % 256, (bitLen >>> 40) % 256,
         (bitLen >>> 32) % 256, (bitLen >>> 24) % 256, (bitLen >>> 16) % 256,
         (bitLen >>> 8) % 256, bitLen % 256 ]

/-- Big-endian bytes of a 32-bit word. -/
def wordBytes (w : ℕ) : List ℕ :=
  [(w >>> 24) % 256, (w >>> 16) % 256, (w >>> 8) % 256, w % 256]

/-- The SHA-256 digest of a byte list, as 32 bytes. -/
def sha256 (msg : List ℕ) : List ℕ :=
  let fin := (chunks 63 (padMsg msg)).foldl compress initH
  wordBytes fin.h0 ++ wordBytes fin.h1 ++ wordBytes fin.h2 ++ wordBytes fin.h3
    ++ wordBytes fin.h4 ++ wordBytes fin.h5 ++ wordBytes fin.h6 ++ wordBytes fin.h7

/-- Lowercase hexadecimal digits: `0`-`9` then `a`-`f`, built from their
character codes. -/
def hexChars : List Char :=
  (List.range 16).map (fun n => if n < 10 then Char.ofNat (48 + n) else Char.ofNat (87 + n))

/-- The lowercase hex digit of a value below 16. -/
def hexDigit (n : ℕ) : Char := hexChars.getD n '0'

/-- Two lowercase hex digits of a byte. -/
def byteHex (b : ℕ) : List Char := [hexDigit (b / 16), hexDigit (b % 16)]

/-- Lowercase hex rendering of a byte list. -/
def bytesToHex (l : List ℕ) : List Char := (l.map byteHex).flatten

/-- `computeSha256` from `actions.ts`: `createHash('sha256').update(buffer).digest('hex')`. -/
def computeSha256 (buffer : List ℕ) : String := String.mk (bytesToHex (sha256 buffer))

/-- `updateTasteScore` from `process-utils.ts`, as a pure state transformer. -/
def updateTasteScore (db : List Contributor) (contributorId : String)
    (alignmentScore : ℚ) : ℚ × List Contributor :=
  match db.find? (fun c => c.anonymousId == contributorId) with
  | none => (0.5, db)
  | some contributor =>
      let alpha : ℚ := 0.2
      let newTasteScore := contributor.tasteScore * (1 - alpha) + alignmentScore * alpha
      let clampedScore := max 0 (min 1 newTasteScore)
      (clampedScore,
        db.map (fun c =>
          if c.anonymousId == contributorId then { c with tasteScore := clampedScore } else c))

/-! ## Declaration ledger (`src/lib/actions.ts`) -/

/-- A `Work` row. -/
structure Work where
  id : String
  title : String
  createdAt : ℕ
  deriving Repr, DecidableEq

/-- A `Declaration` row. -/
structure Declaration where
  id : String
  workId : String
  createdAt : ℕ
  intent : String
  tools : String
  aiUsed : Bool
  contributors : Option String
  deriving Repr, DecidableEq

/-- A `DeclarationRevision` row. -/
structure DeclarationRevision where
  id : String
  declarationId : String
  createdAt : ℕ
  changeNote : String
  intent : Option String
  tools : Option String
  aiUsed : Option Bool
  contributors : Option String
  deriving Repr, DecidableEq

/-- An `AudioReference` row. -/
structure AudioReference where
  id : String
  declarationId : String
  createdAt : ℕ
  fileName : String
  sha256 : String
  description : Option String
  deriving Repr, DecidableEq

/-- The ledger's persistent state: one list per Prisma table. -/
structure LedgerDB where
  works : List Work
  declarations : List Declaration
  revisions : List DeclarationRevision
  audioRefs : List AudioReference
  deriving Repr, DecidableEq

/-- An uploaded file as seen by `createWork` (name, size, raw bytes). -/
structure UploadFile where
  name : String
  size : ℕ
  bytes : List ℕ
  deriving Repr, DecidableEq

/-- The `FormData` consumed by `createWork`; `get` of a missing key is `none`. -/
structure WorkFormData where
  title : Option String
  intent : Option String
  tools : Option String
  aiUsed : Option String
  contributors : Option String
  audioFiles : List UploadFile
  deriving Repr, DecidableEq

/-- The `FormData` consumed by `createRevision`. -/
structure RevisionFormData where
  declarationId : Option String
  changeNote : Option String
  intent : Option String
  tools : Option String
  aiUsed : Option String
  contributors : Option String
  deriving Repr, DecidableEq

/-- Generated ids and the creation timestamp for one `createWork` call. -/
structure WorkFresh where
  workId : String
  declId : String
  audioId : ℕ → String
  now : ℕ

/-- Generated id and creation timestamp for one `createRevision` call. -/
structure RevFresh where
  revId : String
  now : ℕ
  deriving Repr, DecidableEq

/-- `createWork` from `actions.ts`: validate, hash each nonzero-size file,
then create the Work, its Declaration, and the AudioReferences in one
transaction (a single pure state update here). -/
def createWork (fresh : WorkFresh) (fd : WorkFormData) (db : LedgerDB) :
    Except String String × LedgerDB :=
  if blankOpt fd.title then (.error "Work title is required", db)
  else if blankOpt fd.intent then (.error "Intent statement is required", db)
  else if blankOpt fd.tools then (.error "Tools used is required", db)
  else
    let audioRefData :=
      (fd.audioFiles.filter (fun f => f.size > 0)).map
        (fun f => (f.name, computeSha256 f.bytes))
    let work : Work := ⟨fresh.workId, jsTrim (fd.title.getD ""), fresh.now⟩
    let decl : Declaration :=
      ⟨fresh.declId, fresh.workId, fresh.now, jsTrim (fd.intent.getD ""),
       jsTrim (fd.tools.getD ""), fd.aiUsed == some "true", normOpt fd.contributors⟩
    let refs := audioRefData.enum.map
      (fun p => AudioReference.mk (fresh.audioId p.1) fresh.declId fresh.now p.2.1 p.2.2 none)
    (.ok fresh.workId,
      { db with
          works := db.works ++ [work]
          declarations := db.declarations ++ [decl]
          audioRefs := db.audioRefs ++ refs })

/-- `createRevision` from `actions.ts`: validate, look the Declaration up,
then append one revision row with blank optional fields normalised to null. -/
def createRevision (fresh : RevFresh) (fd : RevisionFormData) (db : LedgerDB) :
    Except String Unit × LedgerDB :=
  let aiUsed : Option Bool :=
    if fd.aiUsed == some "true" then some true
    else if fd.aiUsed == some "false" then some false
    else none
  if ¬ strTruthy fd.declarationId then (.error "Declaration ID is required", db)
  else if blankOpt fd.changeNote then (.error "Change note is required", db)
  else
    match db.declarations.find? (fun d => d.id == fd.declarationId.getD "") with
    | none => (.error "Declaration not found", db)
    | some _ =>
        let rev : DeclarationRevision :=
          { id := fresh.revId
            declarationId := fd.declarationId.getD ""
            createdAt := fresh.now
            changeNote := jsTrim (fd.changeNote.getD "")
            intent := normOpt fd.intent
            tools := normOpt fd.tools
            aiUsed := aiUsed
            contributors := normOpt fd.contributors }
        (.ok (), { db with revisions := db.revisions ++ [rev] })

/-- Creation-time order on revisions (`orderBy: { createdAt: 'asc' }`). -/
def revLE (a b : DeclarationRevision) : Prop := a.createdAt ≤ b.createdAt

instance : DecidableRel revLE := fun a b => inferInstanceAs (Decidable (a.createdAt ≤ b.createdAt))

instance : IsTotal DeclarationRevision revLE := ⟨fun a b => Nat.le_total a.createdAt b.createdAt⟩

instance : IsTrans DeclarationRevision revLE := ⟨fun _ _ _ => Nat.le_trans⟩

/-- Creation-time order on audio references (`orderBy: { createdAt: 'asc' }`). -/
def audLE (a b : AudioReference) : Prop := a.createdAt ≤ b.createdAt

instance : DecidableRel audLE := fun a b => inferInstanceAs (Decidable (a.createdAt ≤ b.createdAt))

instance : IsTotal AudioReference audLE := ⟨fun a b => Nat.le_total a.createdAt b.createdAt⟩

instance : IsTrans AudioReference audLE := ⟨fun _ _ _ => Nat.le_trans⟩

/-- What `getWork` returns: the work plus, when present, its declaration
with revisions and audio references in creation-time order. -/
structure WorkView where
  work : Work
  declaration : Option (Declaration × List DeclarationRevision × List AudioReference)
  deriving Repr, DecidableEq

/-- `getWork` from `actions.ts`. -/
def getWork (db : LedgerDB) (id : String) : Option WorkView :=
  match db.works.find? (fun w => w.id == id) with
  | none => none
  | some w =>
      some ⟨w,
        match db.declarations.find? (fun d => d.workId == w.id) with
        | none => none
        | some d =>
            some (d,
              List.insertionSort revLE
                (db.revisions.filter (fun r => r.declarationId == d.id)),
              List.insertionSort audLE
                (db.audioRefs.filter (fun a => a.declarationId == d.id)))⟩

/-- A sequence of `createRevision` calls, applied left to right. -/
def applyRevisions (ops : List (RevFresh × RevisionFormData)) (db : LedgerDB) : LedgerDB :=
  ops.foldl (fun s p => (createRevision p.1 p.2 s).2) db

/-! ## Ingestion endpoint (`src/app/api/process-declaration/route.ts`) -/

/-- A persisted `ProcessDeclaration` row. -/
structure ProcessDeclarationRecord where
  id : String
  platform : String
  sessionStartedAt : String
  sessionEndedAt : Option String
  sessionDuration : Option ℤ
  iterationCount : ℕ
  promptLineage : List PromptVersion
  rejectedOutputs : List RejectedOutput
  selectedOutput : Option SelectedOutput
  consentForTrainingData : Bool
  consentTimestamp : Option String
  consentVersion : Option String
  contributorId : Option String
  contributorExpertiseTags : List String
  deriving Repr, DecidableEq

/-- The endpoint's persistent state. -/
structure ApiDB where
  processDeclarations : List ProcessDeclarationRecord
  contributors : List Contributor
  deriving Repr, DecidableEq

/-- The JSON body of a `POST` response (status code included). -/
structure PostResponse where
  status : ℕ
  success : Bool
  id : Option String
  reward : Option ContributorReward
  error : Option String
  deriving Repr, DecidableEq

/-- The `ProcessDeclaration` row built by the `POST` handler.  `getTime`
models `new Date(s).getTime()` with `none` for an unparseable date (`NaN`);
a `NaN` computed duration is likewise modelled as `none`. -/
def buildRecord (getTime : String → Option ℤ) (freshId : String)
    (input : ProcessDeclarationInput) : ProcessDeclarationRecord :=
  let sessionDuration :=
    if ¬ numTruthy input.sessionDuration ∧ strTruthy input.sessionEndedAt then
      match getTime input.sessionStartedAt, getTime (input.sessionEndedAt.getD "") with
      | some st, some et => some (jsRound (((et - st : ℤ) : ℚ) / 1000))
      | _, _ => none
    else input.sessionDuration
  { id := freshId
    platform := mapPlatformToEnum input.platform
    sessionStartedAt := input.sessionStartedAt
    sessionEndedAt := if strTruthy input.sessionEndedAt then input.sessionEndedAt else none
    sessionDuration := sessionDuration
    iterationCount :=
      match input.iterationCount with
      | some n => if n ≠ 0 then n else input.promptLineage.length
      | none => input.promptLineage.length
    promptLineage := input.promptLineage
    rejectedOutputs := input.rejectedOutputs
    selectedOutput := input.selectedOutput
    consentForTrainingData := input.consentForTrainingData
    consentTimestamp :=
      if strTruthy input.consentTimestamp then input.consentTimestamp else none
    consentVersion := input.consentVersion
    contributorId := input.contributorId
    contributorExpertiseTags := input.expertiseTags.getD [] }

/-- The `POST` handler of `route.ts`.  `calcReward` stands for the call to
`calculateContributionReward` together with its persistence layer; a `none`
result models a thrown error, which the handler catches and swallows after
the `ProcessDeclaration` row has been committed. -/
def postProcessDeclaration (getTime : String → Option ℤ)
    (calcReward : String → String → ProcessDeclarationInput → List Contributor →
      Option (ContributorReward × List Contributor))
    (freshId : String) (db : ApiDB) (input : ProcessDeclarationInput) :
    PostResponse × ApiDB :=
  let validation := validateProcessInput (fun s => (getTime s).isSome) input
  if ¬ validation.valid then
    (⟨400, false, none, none, validation.error⟩, db)
  else
    let record := buildRecord getTime freshId input
    let db1 : ApiDB := { db with processDeclarations := db.processDeclarations ++ [record] }
    let rewardStep :=
      if strTruthy input.contributorId ∧ input.consentForTrainingData then
        match calcReward (input.contributorId.getD "") record.id input db1.contributors with
        | some (r, cs) => (some r, cs)
        | none => (none, db1.contributors)
      else (none, db1.contributors)
    let db2 : ApiDB := { db1 with contributors := rewardStep.2 }
    (⟨201, true, some record.id, rewardStep.1, none⟩, db2)

/-! ## Helper lemmas -/

/-- NIST test vector: the SHA-256 digest of the empty message. -/
theorem computeSha256_empty :
    computeSha256 [] = "e3b0c44298fc1c149afbf4c8996fb92427ae41e4649b934ca495991b7852b855" := by
  set_option maxRecDepth 10000 in decide

/-- NIST test vector: the SHA-256 digest of `"abc"`. -/
theorem computeSha256_abc :
    computeSha256 [97, 98, 99] =
      "ba7816bf8f01cfea414140de5dae2223b00361a396177a9cb410ff61f20015ad" := by
  set_option maxRecDepth 10000 in decide

/-- `mapPlatformToEnum` as a decision chain over the lowercased input. -/
theorem mapPlatform_characterization (s : String) :
    mapPlatformToEnum s =
      if jsToLower s = "midjourney" then "MIDJOURNEY"
      else if jsToLower s = "suno" then "SUNO"
      else if jsToLower s = "udio" then "UDIO"
      else if jsToLower s = "runway" then "RUNWAY"
      else if jsToLower s = "pika" then "PIKA"
      else if jsToLower s = "dalle" then "DALLE"
      else if jsToLower s = "flux" then "FLUX"
      else if jsToLower s = "leonardo" then "LEONARDO"
      else if jsToLower s = "stable-diffusion" then "STABLE_DIFFUSION"
      else if jsToLower s = "higgsfield" then "HIGGSFIELD"
      else if jsToLower s = "chatgpt" then "CHATGPT"
      else if jsToLower s = "claude" then "CLAUDE"
      else "UNKNOWN" := by
  unfold mapPlatformToEnum platformMap
  generalize jsToLower s = k
  rcases eq_or_ne k "midjourney" with rfl | h1
  · decide
  rcases eq_or_ne k "suno" with rfl | h2
  · decide
  rcases eq_or_ne k "udio" with rfl | h3
  · decide
  rcases eq_or_ne k "runway" with rfl | h4
  · decide
  rcases eq_or_ne k "pika" with rfl | h5
  · decide
  rcases eq_or_ne k "dalle" with rfl | h6
  · decide
  rcases eq_or_ne k "flux" with rfl | h7
  · decide
  rcases eq_or_ne k "leonardo" with rfl | h8
  · decide
  rcases eq_or_ne k "stable-diffusion" with rfl | h9
  · decide
  rcases eq_or_ne k "higgsfield" with rfl | h10
  · decide
  rcases eq_or_ne k "chatgpt" with rfl | h11
  · decide
  rcases eq_or_ne k "claude" with rfl | h12
  · decide
  have hf : List.find? (fun p => p.1 == k)
      [ ("midjourney", "MIDJOURNEY"), ("suno", "SUNO"), ("udio", "UDIO"),
        ("runway", "RUNWAY"), ("pika", "PIKA"), ("dalle", "DALLE"),
        ("flux", "FLUX"), ("leonardo", "LEONARDO"),
        ("stable-diffusion", "STABLE_DIFFUSION"), ("higgsfield", "HIGGSFIELD"),
        ("chatgpt", "CHATGPT"), ("claude", "CLAUDE") ] = none := by
    rw [List.find?_eq_none]
    intro x hx
    fin_cases hx <;> (simp only [beq_iff_eq]; rintro rfl; simp_all)
  rw [hf]
  simp [h1, h2, h3, h4, h5, h6, h7, h8, h9, h10, h11, h12]

/-- The platform enumeration produced by `mapPlatformToEnum`. -/
def platformEnumValues : List String :=
  [ "MIDJOURNEY", "SUNO", "UDIO", "RUNWAY", "PIKA", "DALLE", "FLUX", "LEONARDO",
    "STABLE_DIFFUSION", "HIGGSFIELD", "CHATGPT", "CLAUDE", "UNKNOWN" ]

/-- `mapPlatformToEnum` always lands in the fixed enumeration. -/
theorem mapPlatform_mem (s : String) : mapPlatformToEnum s ∈ platformEnumValues := by
  unfold mapPlatformToEnum
  cases hf : platformMap.find? (fun p => p.1 == jsToLower s) with
  | none => decide
  | some p =>
      have hmem := List.mem_of_find?_eq_some hf
      fin_cases hmem <;> decide

/-- Rank of a tier name in the explorer < curator < tastemaker < oracle order. -/
def tierRank (t : String) : ℕ :=
  if t = "curator" then 1
  else if t = "tastemaker" then 2
  else if t = "oracle" then 3
  else 0

/-- `calculateTier` is monotone with respect to the tier order. -/
theorem calculateTier_mono {p q : ℤ} (h : p ≤ q) :
    tierRank (calculateTier p) ≤ tierRank (calculateTier q) := by
  unfold calculateTier TIER_THRESHOLDS_LOCAL
  split_ifs <;> first | decide | omega

/-- The rarity bonus computed inside `calculateContributionReward`. -/
def rarityOf (platform : String) : ℚ :=
  jsOrDefault
    ((PLATFORM_RARITY_LOCAL.find? (fun p => p.1 == mapPlatformToEnum platform)).map (·.2)) 1.0

/-- How the returned reward fields of `calculateContributionReward` relate:
the quality multiplier is `0.5 + tasteScore` of the (found or lazily created)
contributor, the rarity bonus is the platform-table lookup, the points earned
are `round(base × quality × rarity)`, and the new total adds them on. -/
theorem reward_fields (cid : String) (input : ProcessDeclarationInput) (db : List Contributor) :
    ((calculateContributionReward cid input db).1.qualityMultiplier =
      0.5 + ((db.find? (fun c => c.anonymousId == cid)).getD
        (freshContributor cid input)).tasteScore) ∧
    ((calculateContributionReward cid input db).1.rarityBonus = rarityOf input.platform) ∧
    ((calculateContributionReward cid input db).1.pointsEarned =
      jsRound ((calcBasePoints input : ℚ) *
        (calculateContributionReward cid input db).1.qualityMultiplier *
        (calculateContributionReward cid input db).1.rarityBonus)) ∧
    ((calculateContributionReward cid input db).1.newTotal =
      ((db.find? (fun c => c.anonymousId == cid)).getD
        (freshContributor cid input)).totalPoints
        + (calculateContributionReward cid input db).1.pointsEarned) := by
  simp [calculateContributionReward, rarityOf]

/-- The rarity table never drops below `0.7` (the `CHATGPT` entry). -/
theorem rarityOf_lb (s : String) : 7/10 ≤ rarityOf s := by
  have hm := mapPlatform_mem s
  simp only [platformEnumValues, List.mem_cons, List.not_mem_nil, or_false] at hm
  unfold rarityOf
  rcases hm with h | h | h | h | h | h | h | h | h | h | h | h | h <;> rw [h] <;>
    simp [PLATFORM_RARITY_LOCAL, jsOrDefault] <;> norm_num

/-- Every reward starts from at least the 10 base points. -/
theorem calcBasePoints_ge (input : ProcessDeclarationInput) : 10 ≤ calcBasePoints input := by
  unfold calcBasePoints
  rcases input.selectedOutput with _ | sel <;> simp only [] <;> split_ifs <;> omega

/-- The base-points formula exactly as the spec words it: 10, plus
`min(2·lineage, 20)`, plus `min(3·rejections, 30)`, plus the selection
bonuses, plus the duration bonus when a duration is available, plus
`min(2·tags, 6)`. -/
def specBasePoints (input : ProcessDeclarationInput) : ℕ :=
  10 + min (2 * input.promptLineage.length) 20
    + min (3 * input.rejectedOutputs.length) 30
    + (match input.selectedOutput with
       | some sel => 10 + (if strTruthy sel.likeReason then 5 else 0)
           + (if strTruthy sel.customFeedback then 10 else 0)
       | none => 0)
    + (match input.sessionDuration with
       | some d =>
           if ((d : ℚ) / 60) ≥ 15 then 10
           else if ((d : ℚ) / 60) ≥ 5 then 5
           else if ((d : ℚ) / 60) ≥ 2 then 2
           else 0
       | none => 0)
    + min (2 * (input.expertiseTags.getD []).length) 6

set_option maxHeartbeats 1000000 in
/-- The code's base-point accumulation agrees with the spec's formula on
every input. -/
theorem calcBasePoints_eq_spec (input : ProcessDeclarationInput) :
    calcBasePoints input = specBasePoints input := by
  unfold calcBasePoints specBasePoints
  rcases input.selectedOutput with _ | sel <;> rcases hd : input.sessionDuration with _ | d
  · norm_num [numTruthy]
    (try split_ifs) <;> omega
  · rcases eq_or_ne d 0 with rfl | hdz
    · norm_num [numTruthy]
      (try split_ifs) <;> omega
    · norm_num [numTruthy, hdz]
      (try split_ifs) <;> omega
  · norm_num [numTruthy]
    (try split_ifs) <;> omega
  · rcases eq_or_ne d 0 with rfl | hdz
    · norm_num [numTruthy]
      (try split_ifs) <;> omega
    · norm_num [numTruthy, hdz]
      (try split_ifs) <;> omega

/-! ## Concrete fixtures used by witnesses -/

/-- A dummy prompt version used to build concrete inputs. -/
def pv (n : ℕ) : PromptVersion :=
  ⟨"p" ++ toString n, "content", "2026-01-01T00:00:00Z", none, "manual", "stable-diffusion"⟩

/-- A dummy rejected output used to build concrete inputs. -/
def rj (n : ℕ) : RejectedOutput :=
  ⟨"r" ++ toString n, "p1", "2026-01-01T00:01:00Z", some "wrong-style", none⟩

/-- A minimal concrete process-capture input. -/
def baseInput : ProcessDeclarationInput :=
  { platform := "stable-diffusion"
    sessionStartedAt := "2026-01-01T00:00:00Z"
    sessionEndedAt := none
    sessionDuration := none
    iterationCount := none
    promptLineage := []
    rejectedOutputs := []
    selectedOutput := none
    consentForTrainingData := false
    consentTimestamp := none
    consentVersion := none
    contributorId := none
    expertiseTags := none }

/-- The spec's worked example: lineage 5, rejections 2, selection with a
like-reason and custom feedback, 600-second session, no tags. -/
def exampleInput : ProcessDeclarationInput :=
  { baseInput with
    promptLineage := [pv 1, pv 2, pv 3, pv 4, pv 5]
    rejectedOutputs := [rj 1, rj 2]
    selectedOutput := some
      ⟨"s1", "p5", "2026-01-01T00:10:00Z", some "prompt-adherence", some "love it", none⟩
    sessionDuration := some 600 }

/-- A concrete contributor with the neutral taste score. -/
def aliceC : Contributor :=
  { anonymousId := "alice"
    totalContributions := 0
    totalPoints := 0
    currentTier := "EXPLORER"
    tasteScore := 0.5
    expertiseTags := []
    platformStats := []
    consentVersion := none
    consentTimestamp := none }

/-- The worked example earns 56 base points. -/
theorem exampleInput_base : calcBasePoints exampleInput = 56 := by
  norm_num [calcBasePoints, exampleInput, baseInput, pv, rj, strTruthy, numTruthy]
  decide

/-- In the worked example, with a 0.5-taste-score contributor on
`stable-diffusion`, the final award is 56 points. -/
theorem exampleInput_points :
    (calculateContributionReward "alice" exampleInput [aliceC]).1.pointsEarned = 56 := by
  have hp := (reward_fields "alice" exampleInput [aliceC]).2.2.1
  have hq := (reward_fields "alice" exampleInput [aliceC]).1
  have hr := (reward_fields "alice" exampleInput [aliceC]).2.1
  rw [hp, hq, hr, exampleInput_base]
  have hfind : List.find? (fun c => c.anonymousId == "alice") [aliceC] = some aliceC := rfl
  rw [hfind]
  have hmap : mapPlatformToEnum exampleInput.platform = "STABLE_DIFFUSION" := rfl
  have hrar : rarityOf exampleInput.platform = 1 := by
    unfold rarityOf
    rw [hmap]
    have hfind2 : List.find? (fun p => p.1 == "STABLE_DIFFUSION") PLATFORM_RARITY_LOCAL
        = some ("STABLE_DIFFUSION", 1.0) := rfl
    rw [hfind2]
    norm_num [jsOrDefault]
  rw [hrar]
  norm_num [aliceC, jsRound]

/-! ## Claims -/

/-- C4: `calculateTier` respects the fixed thresholds with the stated
boundary inclusivity: 99 → explorer, 100 and 499 → curator, 500 and 1999 →
tastemaker, 2000 → oracle; and for every non-negative total the tier is
explorer on `[0,100)`, curator on `[100,500)`, tastemaker on `[500,2000)`,
and oracle on `[2000,∞)`. -/
theorem tier_boundaries_spec :
    calculateTier 99 = "explorer" ∧ calculateTier 100 = "curator" ∧
    calculateTier 499 = "curator" ∧ calculateTier 500 = "tastemaker" ∧
    calculateTier 1999 = "tastemaker" ∧ calculateTier 2000 = "oracle" ∧
    ∀ p : ℤ, 0 ≤ p →
      (calculateTier p = "explorer" ↔ p < 100) ∧
      (calculateTier p = "curator" ↔ 100 ≤ p ∧ p < 500) ∧
      (calculateTier p = "tastemaker" ↔ 500 ≤ p ∧ p < 2000) ∧
      (calculateTier p = "oracle" ↔ 2000 ≤ p) := by
  refine ⟨by decide, by decide, by decide, by decide, by decide, by decide, ?_⟩
  intro p hp
  unfold calculateTier TIER_THRESHOLDS_LOCAL
  split_ifs with h1 h2 h3 <;> refine ⟨?_, ?_, ?_, ?_⟩ <;> simp_all <;> omega

/-- Witness for C4 at the concrete total 750. -/
theorem tier_boundaries_spec_witness :
    (0 : ℤ) ≤ 750 ∧
      ((calculateTier 750 = "explorer" ↔ (750 : ℤ) < 100) ∧
       (calculateTier 750 = "curator" ↔ (100 : ℤ) ≤ 750 ∧ (750 : ℤ) < 500) ∧
       (calculateTier 750 = "tastemaker" ↔ (500 : ℤ) ≤ 750 ∧ (750 : ℤ) < 2000) ∧
       (calculateTier 750 = "oracle" ↔ (2000 : ℤ) ≤ 750)) :=
  ⟨by decide, tier_boundaries_spec.2.2.2.2.2.2 750 (by decide)⟩

/-- C6: `mapPlatformToEnum` is total: it is fully determined by a
case-insensitive comparison of the input against the twelve enumerated
names, every unrecognized input maps to `UNKNOWN`, the result always lies
in the fixed enumeration, and an unknown platform receives rarity bonus
`1.0` in the reward computation. -/
theorem mapPlatform_total_spec :
    (∀ s : String, mapPlatformToEnum s =
      if jsToLower s = "midjourney" then "MIDJOURNEY"
      else if jsToLower s = "suno" then "SUNO"
      else if jsToLower s = "udio" then "UDIO"
      else if jsToLower s = "runway" then "RUNWAY"
      else if jsToLower s = "pika" then "PIKA"
      else if jsToLower s = "dalle" then "DALLE"
      else if jsToLower s = "flux" then "FLUX"
      else if jsToLower s = "leonardo" then "LEONARDO"
      else if jsToLower s = "stable-diffusion" then "STABLE_DIFFUSION"
      else if jsToLower s = "higgsfield" then "HIGGSFIELD"
      else if jsToLower s = "chatgpt" then "CHATGPT"
      else if jsToLower s = "claude" then "CLAUDE"
      else "UNKNOWN") ∧
    (∀ s : String, mapPlatformToEnum s ∈ platformEnumValues) ∧
    (∀ (cid : String) (input : ProcessDeclarationInput) (db : List Contributor),
      mapPlatformToEnum input.platform = "UNKNOWN" →
      (calculateContributionReward cid input db).1.rarityBonus = 1) := by
  refine ⟨mapPlatform_characterization, mapPlatform_mem, ?_⟩
  intro cid input db h
  have hr := (reward_fields cid input db).2.1
  rw [hr]
  unfold rarityOf
  rw [h]
  have hfind : List.find? (fun p => p.1 == "UNKNOWN") PLATFORM_RARITY_LOCAL
      = some ("UNKNOWN", 1.0) := rfl
  rw [hfind]
  norm_num [jsOrDefault]

/-- Witness for C6: a string outside the enumeration maps to `UNKNOWN`
and earns rarity bonus 1. -/
theorem mapPlatform_total_spec_witness :
    mapPlatformToEnum "not-a-real-platform" = "UNKNOWN" ∧
    (calculateContributionReward "alice"
      { baseInput with platform := "not-a-real-platform" } [aliceC]).1.rarityBonus = 1 :=
  ⟨rfl,
   mapPlatform_total_spec.2.2 "alice"
     { baseInput with platform := "not-a-real-platform" } [aliceC] rfl⟩

/-- C1: for every process-capture input and contributor state, the base
points of `calculateContributionReward` equal the spec's formula — 10, plus
`min(2·lineage, 20)`, plus `min(3·rejections, 30)`, plus the selection
bonuses (10, +5 for a like-reason, +10 for free-text feedback), plus the
duration bonus when a duration is available, plus `min(2·tags, 6)` — the
points earned are `round(basePoints × qualityMultiplier × rarityBonus)`,
and the spec's worked example yields base points 56 and points earned 56. -/
theorem reward_formula_spec :
    (∀ input : ProcessDeclarationInput, calcBasePoints input = specBasePoints input) ∧
    (∀ (cid : String) (input : ProcessDeclarationInput) (db : List Contributor),
      (calculateContributionReward cid input db).1.pointsEarned =
        jsRound ((calcBasePoints input : ℚ) *
          (calculateContributionReward cid input db).1.qualityMultiplier *
          (calculateContributionReward cid input db).1.rarityBonus)) ∧
    calcBasePoints exampleInput = 56 ∧
    (calculateContributionReward "alice" exampleInput [aliceC]).1.pointsEarned = 56 :=
  ⟨calcBasePoints_eq_spec,
   fun cid input db => (reward_fields cid input db).2.2.1,
   exampleInput_base, exampleInput_points⟩

/-- `updateTasteScore` on a found contributor, written out. -/
theorem updateTasteScore_found (db : List Contributor) (cid : String) (a : ℚ)
    (c : Contributor) (hfind : db.find? (fun x => x.anonymousId == cid) = some c) :
    updateTasteScore db cid a =
      (max 0 (min 1 (c.tasteScore * (1 - 0.2) + a * 0.2)),
       db.map (fun x => if x.anonymousId == cid then
         { x with tasteScore := max 0 (min 1 (c.tasteScore * (1 - 0.2) + a * 0.2)) } else x)) := by
  unfold updateTasteScore
  rw [hfind]

/-- Updating the found row in place commutes with `find?` when the update
keeps the key. -/
theorem find_map_update (db : List Contributor) (cid : String) (c : Contributor)
    (v : ℚ) (h : db.find? (fun x => x.anonymousId == cid) = some c) :
    (db.map (fun x => if x.anonymousId == cid then { x with tasteScore := v } else x)).find?
      (fun x => x.anonymousId == cid) = some { c with tasteScore := v } := by
  induction db with
  | nil => simp at h
  | cons y ys ih =>
      by_cases hy : (y.anonymousId == cid) = true
      · rw [@List.find?_cons_of_pos _ (fun x => x.anonymousId == cid) y ys hy] at h
        injection h with h'
        subst h'
        simp only [List.map_cons, if_pos hy]
        exact List.find?_cons_of_pos _ hy
      · have hy' : ¬ ((fun x : Contributor => x.anonymousId == cid) y = true) := hy
        rw [@List.find?_cons_of_neg _ (fun x => x.anonymousId == cid) y ys hy'] at h
        simp only [List.map_cons, if_neg hy]
        rw [@List.find?_cons_of_neg _ (fun x => x.anonymousId == cid) y _ hy']
        exact ih h

/-- C5: for a known contributor with score in `[0,1]` and alignment in
`[0,1]`, `updateTasteScore` returns and persists
`clamp01(score × 0.8 + alignment × 0.2)`, moving the score by exactly 20%
of the gap, and the score is a fixed point exactly when the alignment
equals it; for an unknown contributor it returns 0.5 and changes nothing. -/
theorem updateTasteScore_spec :
    (∀ (db : List Contributor) (cid : String) (a : ℚ) (c : Contributor),
      db.find? (fun x => x.anonymousId == cid) = some c →
      0 ≤ c.tasteScore → c.tasteScore ≤ 1 → 0 ≤ a → a ≤ 1 →
      ((updateTasteScore db cid a).1 = max 0 (min 1 (c.tasteScore * 0.8 + a * 0.2)) ∧
       (updateTasteScore db cid a).1 - c.tasteScore = 0.2 * (a - c.tasteScore) ∧
       (updateTasteScore db cid a).2.find? (fun x => x.anonymousId == cid) =
         some { c with tasteScore := (updateTasteScore db cid a).1 } ∧
       ((updateTasteScore db cid a).1 = c.tasteScore ↔ a = c.tasteScore))) ∧
    (∀ (db : List Contributor) (cid : String) (a : ℚ),
      db.find? (fun x => x.anonymousId == cid) = none →
      updateTasteScore db cid a = (0.5, db)) := by
  constructor
  · intro db cid a c hfind h0 h1 ha0 ha1
    have hupd := updateTasteScore_found db cid a c hfind
    have hform : c.tasteScore * (1 - 0.2) + a * 0.2 = c.tasteScore * 0.8 + a * 0.2 := by
      norm_num
    have hle : c.tasteScore * 0.8 + a * 0.2 ≤ 1 := by linarith
    have hge : (0 : ℚ) ≤ c.tasteScore * 0.8 + a * 0.2 := by linarith
    have hclamp : max 0 (min 1 (c.tasteScore * 0.8 + a * 0.2))
        = c.tasteScore * 0.8 + a * 0.2 := by
      rw [min_eq_right hle, max_eq_right hge]
    have hval : (updateTasteScore db cid a).1 = max 0 (min 1 (c.tasteScore * 0.8 + a * 0.2)) := by
      rw [hupd]
      simp only [hform]
    refine ⟨hval, ?_, ?_, ?_⟩
    · rw [hval, hclamp]; ring
    · rw [hval]
      have h2 : (updateTasteScore db cid a).2 = db.map (fun x =>
          if x.anonymousId == cid then
            { x with tasteScore := max 0 (min 1 (c.tasteScore * 0.8 + a * 0.2)) } else x) := by
        rw [hupd]
        simp only [hform]
      rw [h2]
      exact find_map_update db cid c _ hfind
    · rw [hval, hclamp]
      constructor
      · intro h; linarith
      · intro h; linarith
  · intro db cid a hfind
    unfold updateTasteScore
    rw [hfind]

/-- Witness for C5 at a concrete one-row table. -/
theorem updateTasteScore_spec_witness :
    List.find? (fun x => x.anonymousId == "alice") [aliceC] = some aliceC ∧
    ((0 : ℚ) ≤ aliceC.tasteScore ∧ aliceC.tasteScore ≤ 1 ∧ (0 : ℚ) ≤ 0.25 ∧ (0.25 : ℚ) ≤ 1) ∧
    ((updateTasteScore [aliceC] "alice" 0.25).1 =
        max 0 (min 1 (aliceC.tasteScore * 0.8 + 0.25 * 0.2)) ∧
      (updateTasteScore [aliceC] "alice" 0.25).1 - aliceC.tasteScore =
        0.2 * (0.25 - aliceC.tasteScore) ∧
      (updateTasteScore [aliceC] "alice" 0.25).2.find? (fun x => x.anonymousId == "alice") =
        some { aliceC with tasteScore := (updateTasteScore [aliceC] "alice" 0.25).1 } ∧
      ((updateTasteScore [aliceC] "alice" 0.25).1 = aliceC.tasteScore ↔
        (0.25 : ℚ) = aliceC.tasteScore)) :=
  ⟨rfl, ⟨by norm_num [aliceC], by norm_num [aliceC], by norm_num, by norm_num⟩,
   updateTasteScore_spec.1 [aliceC] "alice" 0.25 aliceC rfl
     (by norm_num [aliceC]) (by norm_num [aliceC]) (by norm_num) (by norm_num)⟩

/-- C7: for an existing contributor with taste score in `[0,1]` whose stored
tier matches `calculateTier` of the stored total, the quality multiplier
lies in `[0.5, 1.5]`, the points earned are strictly positive, the new
total strictly exceeds the prior total, and the recomputed tier is at
least the prior tier in the explorer < curator < tastemaker < oracle
order. -/
theorem reward_invariants_spec :
    ∀ (cid : String) (input : ProcessDeclarationInput) (db : List Contributor)
      (c : Contributor),
      db.find? (fun x => x.anonymousId == cid) = some c →
      0 ≤ c.tasteScore → c.tasteScore ≤ 1 →
      jsToLower c.currentTier = calculateTier c.totalPoints →
      ((1/2 : ℚ) ≤ (calculateContributionReward cid input db).1.qualityMultiplier ∧
        (calculateContributionReward cid input db).1.qualityMultiplier ≤ 3/2) ∧
      0 < (calculateContributionReward cid input db).1.pointsEarned ∧
      c.totalPoints < (calculateContributionReward cid input db).1.newTotal ∧
      tierRank (jsToLower c.currentTier) ≤
        tierRank (calculateTier (calculateContributionReward cid input db).1.newTotal) := by
  intro cid input db c hfind h0 h1 htier
  obtain ⟨hq, hr, hp, hn⟩ := reward_fields cid input db
  rw [hfind] at hq hn
  simp only [Option.getD_some] at hq hn
  have hrb := rarityOf_lb input.platform
  have hbase := calcBasePoints_ge input
  have hb : (10 : ℚ) ≤ (calcBasePoints input : ℚ) := by exact_mod_cast hbase
  have hpos : 0 < (calculateContributionReward cid input db).1.pointsEarned := by
    rw [hp, hq, hr]
    have e1 : (5 : ℚ) ≤ (calcBasePoints input : ℚ) * (0.5 + c.tasteScore) := by nlinarith
    have e2 : (7/2 : ℚ) ≤ (calcBasePoints input : ℚ) * (0.5 + c.tasteScore)
        * rarityOf input.platform := by nlinarith
    unfold jsRound
    have : (1 : ℤ) ≤ ⌊(calcBasePoints input : ℚ) * (0.5 + c.tasteScore)
        * rarityOf input.platform + 1/2⌋ := by
      rw [Int.le_floor]
      push_cast
      linarith
    omega
  refine ⟨⟨by rw [hq]; linarith, by rw [hq]; linarith⟩, hpos, ?_, ?_⟩
  · rw [hn]; omega
  · rw [htier]
    apply calculateTier_mono
    rw [hn]
    omega

/-- Witness for C7: one contributor at the neutral state. -/
theorem reward_invariants_spec_witness :
    List.find? (fun x => x.anonymousId == "alice") [aliceC] = some aliceC ∧
    ((0 : ℚ) ≤ aliceC.tasteScore ∧ aliceC.tasteScore ≤ 1 ∧
      jsToLower aliceC.currentTier = calculateTier aliceC.totalPoints) ∧
    (((1/2 : ℚ) ≤ (calculateContributionReward "alice" baseInput [aliceC]).1.qualityMultiplier ∧
       (calculateContributionReward "alice" baseInput [aliceC]).1.qualityMultiplier ≤ 3/2) ∧
      0 < (calculateContributionReward "alice" baseInput [aliceC]).1.pointsEarned ∧
      aliceC.totalPoints < (calculateContributionReward "alice" baseInput [aliceC]).1.newTotal ∧
      tierRank (jsToLower aliceC.currentTier) ≤
        tierRank (calculateTier
          (calculateContributionReward "alice" baseInput [aliceC]).1.newTotal)) :=
  ⟨rfl, ⟨by norm_num [aliceC], by norm_num [aliceC], by decide⟩,
   reward_invariants_spec "alice" baseInput [aliceC] aliceC rfl
     (by norm_num [aliceC]) (by norm_num [aliceC]) (by decide)⟩

/-- C8: `createRevision` fails with a validation error when the declaration
id is missing or the change note is blank after trimming, fails with a
not-found error when no declaration matches, leaves the state unchanged in
every failure case, and on success appends exactly one revision whose
blank optional fields are stored as null. -/
theorem createRevision_errors_spec :
    ∀ (fresh : RevFresh) (fd : RevisionFormData) (db : LedgerDB),
      (¬ strTruthy fd.declarationId = true →
        createRevision fresh fd db = (.error "Declaration ID is required", db)) ∧
      (strTruthy fd.declarationId = true → blankOpt fd.changeNote = true →
        createRevision fresh fd db = (.error "Change note is required", db)) ∧
      (strTruthy fd.declarationId = true → ¬ blankOpt fd.changeNote = true →
        db.declarations.find? (fun d => d.id == fd.declarationId.getD "") = none →
        createRevision fresh fd db = (.error "Declaration not found", db)) ∧
      (∀ d0, strTruthy fd.declarationId = true → ¬ blankOpt fd.changeNote = true →
        db.declarations.find? (fun d => d.id == fd.declarationId.getD "") = some d0 →
        createRevision fresh fd db = (.ok (),
          { db with revisions := db.revisions ++
            [{ id := fresh.revId
               declarationId := fd.declarationId.getD ""
               createdAt := fresh.now
               changeNote := jsTrim (fd.changeNote.getD "")
               intent := normOpt fd.intent
               tools := normOpt fd.tools
               aiUsed :=
                 if fd.aiUsed == some "true" then some true
                 else if fd.aiUsed == some "false" then some false
                 else none
               contributors := normOpt fd.contributors }] }) ∧
        (fd.intent = some "" → normOpt fd.intent = none) ∧
        (fd.tools = some "" → normOpt fd.tools = none) ∧
        (fd.contributors = some "" → normOpt fd.contributors = none)) := by
  intro fresh fd db
  refine ⟨?_, ?_, ?_, ?_⟩
  · intro h
    unfold createRevision
    rw [if_pos h]
  · intro h1 h2
    unfold createRevision
    rw [if_neg (by simp [h1]), if_pos h2]
  · intro h1 h2 h3
    unfold createRevision
    rw [if_neg (by simp [h1]), if_neg h2, h3]
  · intro d0 h1 h2 h3
    refine ⟨?_, ?_, ?_, ?_⟩
    · unfold createRevision
      rw [if_neg (by simp [h1]), if_neg h2, h3]
    · intro he; simp [normOpt, he, jsTrim]
    · intro he; simp [normOpt, he, jsTrim]
    · intro he; simp [normOpt, he, jsTrim]

/-- Witness for C8: a one-declaration ledger and a blank-optional revision. -/
theorem createRevision_errors_spec_witness :
    (strTruthy (some "d1") = true ∧ ¬ blankOpt (some "fixed typo") = true ∧
      (LedgerDB.mk [⟨"w1", "T", 0⟩] [⟨"d1", "w1", 0, "i", "t", false, none⟩] [] []).declarations.find?
        (fun d => d.id == (some "d1").getD "") =
        some ⟨"d1", "w1", 0, "i", "t", false, none⟩) ∧
    (createRevision ⟨"r1", 5⟩
        ⟨some "d1", some "fixed typo", some "", some "", none, some ""⟩
        (LedgerDB.mk [⟨"w1", "T", 0⟩] [⟨"d1", "w1", 0, "i", "t", false, none⟩] [] []) =
      (.ok (),
        { LedgerDB.mk [⟨"w1", "T", 0⟩] [⟨"d1", "w1", 0, "i", "t", false, none⟩] [] [] with
          revisions := [] ++
            [{ id := "r1"
               declarationId := (some "d1").getD ""
               createdAt := 5
               changeNote := jsTrim ((some "fixed typo").getD "")
               intent := normOpt (some "")
               tools := normOpt (some "")
               aiUsed :=
                 if (none : Option String) == some "true" then some true
                 else if (none : Option String) == some "false" then some false
                 else none
               contributors := normOpt (some "") }] }) ∧
      (some "" = some "" → normOpt (some "") = none) ∧
      (some "" = some "" → normOpt (some "") = none) ∧
      (some "" = some "" → normOpt (some "") = none)) :=
  ⟨⟨rfl, by decide, rfl⟩,
   (createRevision_errors_spec ⟨"r1", 5⟩
      ⟨some "d1", some "fixed typo", some "", some "", none, some ""⟩
      (LedgerDB.mk [⟨"w1", "T", 0⟩] [⟨"d1", "w1", 0, "i", "t", false, none⟩] [] [])).2.2.2
     ⟨"d1", "w1", 0, "i", "t", false, none⟩ rfl (by decide) rfl⟩

/-- The deployed `POST` handler: the reward step is the real
`calculateContributionReward`, which as a pure model always succeeds. -/
def postRoute (getTime : String → Option ℤ) (freshId : String) (db : ApiDB)
    (input : ProcessDeclarationInput) : PostResponse × ApiDB :=
  postProcessDeclaration getTime
    (fun cid _ inp cs => some (calculateContributionReward cid inp cs)) freshId db input

/-- C9: when the reward computation throws after the `ProcessDeclaration`
row was committed, the handler still answers 201 with `success: true` and
the created id, the reward field is omitted, the committed row is not
rolled back, and the contributor table is untouched. -/
theorem reward_failure_tolerated_spec :
    ∀ (getTime : String → Option ℤ)
      (calcReward : String → String → ProcessDeclarationInput → List Contributor →
        Option (ContributorReward × List Contributor))
      (freshId : String) (db : ApiDB) (input : ProcessDeclarationInput),
      (validateProcessInput (fun s => (getTime s).isSome) input).valid = true →
      strTruthy input.contributorId = true →
      input.consentForTrainingData = true →
      calcReward (input.contributorId.getD "") freshId input db.contributors = none →
      (postProcessDeclaration getTime calcReward freshId db input).1 =
        ⟨201, true, some freshId, none, none⟩ ∧
      buildRecord getTime freshId input ∈
        (postProcessDeclaration getTime calcReward freshId db input).2.processDeclarations ∧
      (postProcessDeclaration getTime calcReward freshId db input).2.contributors =
        db.contributors := by
  intro getTime calcReward freshId db input hval htr hco hfail
  unfold postProcessDeclaration
  rw [if_neg (by simp [hval])]
  have hid : (buildRecord getTime freshId input).id = freshId := rfl
  simp [htr, hco, hid, hfail]

/-- Witness input for the endpoint claims: valid, consented, attributed. -/
def postInput : ProcessDeclarationInput :=
  { baseInput with
    platform := "suno"
    contributorId := some "alice"
    consentForTrainingData := true
    consentTimestamp := some "2026-01-01T00:20:00Z" }

/-- Witness for C9 with an always-throwing reward step. -/
theorem reward_failure_tolerated_spec_witness :
    ((validateProcessInput
        (fun s => ((fun _ : String => some (0 : ℤ)) s).isSome) postInput).valid = true ∧
      strTruthy postInput.contributorId = true ∧
      postInput.consentForTrainingData = true) ∧
    ((postProcessDeclaration (fun _ => some 0) (fun _ _ _ _ => none) "pd1"
        ⟨[], [aliceC]⟩ postInput).1 = ⟨201, true, some "pd1", none, none⟩ ∧
      buildRecord (fun _ => some 0) "pd1" postInput ∈
        (postProcessDeclaration (fun _ => some 0) (fun _ _ _ _ => none) "pd1"
          ⟨[], [aliceC]⟩ postInput).2.processDeclarations ∧
      (postProcessDeclaration (fun _ => some 0) (fun _ _ _ _ => none) "pd1"
        ⟨[], [aliceC]⟩ postInput).2.contributors = [aliceC]) :=
  ⟨⟨by decide, by decide, by decide⟩,
   reward_failure_tolerated_spec (fun _ => some 0) (fun _ _ _ _ => none) "pd1"
     ⟨[], [aliceC]⟩ postInput (by decide) (by decide) (by decide) rfl⟩

/-- C10: a valid submission computes a reward and touches the contributor
table only when a contributor id is attached and training consent is
given; otherwise it still succeeds, with no reward and no contributor
change.  When both are present the returned reward and the new contributor
table are exactly those of `calculateContributionReward`. -/
theorem reward_gating_spec :
    ∀ (getTime : String → Option ℤ) (freshId : String) (db : ApiDB)
      (input : ProcessDeclarationInput),
      (validateProcessInput (fun s => (getTime s).isSome) input).valid = true →
      (¬ (strTruthy input.contributorId = true ∧ input.consentForTrainingData = true) →
        (postRoute getTime freshId db input).1.status = 201 ∧
        (postRoute getTime freshId db input).1.success = true ∧
        (postRoute getTime freshId db input).1.reward = none ∧
        (postRoute getTime freshId db input).2.contributors = db.contributors ∧
        buildRecord getTime freshId input ∈
          (postRoute getTime freshId db input).2.processDeclarations) ∧
      (strTruthy input.contributorId = true → input.consentForTrainingData = true →
        (postRoute getTime freshId db input).1.reward = some
          (calculateContributionReward (input.contributorId.getD "") input db.contributors).1 ∧
        (postRoute getTime freshId db input).2.contributors =
          (calculateContributionReward (input.contributorId.getD "") input db.contributors).2) := by
  intro getTime freshId db input hval
  constructor
  · intro hno
    unfold postRoute postProcessDeclaration
    rw [if_neg (by simp [hval])]
    simp [if_neg hno]
  · intro htr hco
    unfold postRoute postProcessDeclaration
    rw [if_neg (by simp [hval])]
    simp [htr, hco]

/-- Witness for C10: without consent nothing is rewarded; with consent the
reward is exactly the engine's result. -/
theorem reward_gating_spec_witness :
    ((validateProcessInput
        (fun s => ((fun _ : String => some (0 : ℤ)) s).isSome) baseInput).valid = true ∧
      ¬ (strTruthy baseInput.contributorId = true ∧
          baseInput.consentForTrainingData = true)) ∧
    ((postRoute (fun _ => some 0) "pd2" ⟨[], [aliceC]⟩ baseInput).1.status = 201 ∧
      (postRoute (fun _ => some 0) "pd2" ⟨[], [aliceC]⟩ baseInput).1.success = true ∧
      (postRoute (fun _ => some 0) "pd2" ⟨[], [aliceC]⟩ baseInput).1.reward = none ∧
      (postRoute (fun _ => some 0) "pd2" ⟨[], [aliceC]⟩ baseInput).2.contributors = [aliceC] ∧
      buildRecord (fun _ => some 0) "pd2" baseInput ∈
        (postRoute (fun _ => some 0) "pd2" ⟨[], [aliceC]⟩ baseInput).2.processDeclarations) :=
  ⟨⟨by decide, by decide⟩,
   (reward_gating_spec (fun _ => some 0) "pd2" ⟨[], [aliceC]⟩ baseInput (by decide)).1
     (by decide)⟩

/-- The SHA-256 digest always has 32 bytes. -/
theorem sha256_length (msg : List ℕ) : (sha256 msg).length = 32 := by
  unfold sha256
  simp [wordBytes]

/-- Hex rendering doubles the length. -/
theorem bytesToHex_length (l : List ℕ) : (bytesToHex l).length = 2 * l.length := by
  induction l with
  | nil => rfl
  | cons b t ih =>
      simp only [bytesToHex, List.map_cons, List.flatten_cons, List.length_append,
        List.length_cons] at ih ⊢
      simp [byteHex] at ih ⊢
      omega

/-- Every hex digit produced is a lowercase hex character. -/
theorem hexDigit_mem (n : ℕ) : hexDigit n ∈ hexChars := by
  unfold hexDigit
  rcases lt_or_ge n 16 with h | h
  · interval_cases n <;> decide
  · rw [List.getD_eq_getElem?_getD, List.getElem?_eq_none (by simp [hexChars]; omega)]
    decide

/-- Every character of a hex rendering is a lowercase hex character. -/
theorem bytesToHex_mem (l : List ℕ) : ∀ ch ∈ bytesToHex l, ch ∈ hexChars := by
  intro c hc
  unfold bytesToHex at hc
  rw [List.mem_flatten] at hc
  obtain ⟨a, ha, hca⟩ := hc
  rw [List.mem_map] at ha
  obtain ⟨b, _, rfl⟩ := ha
  unfold byteHex at hca
  simp only [List.mem_cons, List.not_mem_nil, or_false] at hca
  rcases hca with rfl | rfl
  · exact hexDigit_mem _
  · exact hexDigit_mem _

/-- `computeSha256` always produces 64 characters. -/
theorem computeSha256_length (msg : List ℕ) : (computeSha256 msg).length = 64 := by
  show (bytesToHex (sha256 msg)).length = 64
  rw [bytesToHex_length, sha256_length]

/-- `computeSha256` only produces lowercase hex characters. -/
theorem computeSha256_hexlower (msg : List ℕ) :
    ∀ ch ∈ (computeSha256 msg).data, ch ∈ hexChars :=
  bytesToHex_mem (sha256 msg)

/-- The audio-reference rows created by one `createWork` call. -/
def newAudioRefs (fresh : WorkFresh) (fd : WorkFormData) : List AudioReference :=
  ((fd.audioFiles.filter (fun f => f.size > 0)).map
      (fun f => (f.name, computeSha256 f.bytes))).enum.map
    (fun p => ⟨fresh.audioId p.1, fresh.declId, fresh.now, p.2.1, p.2.2, none⟩)

/-- C3: a valid `createWork` input creates, in one state update, exactly one
work, one declaration and one audio reference per uploaded file of nonzero
size, each reference carrying the file's name and the SHA-256 digest of its
bytes, which is always a 64-character lowercase hex string; a blank
required field yields a validation error and leaves the state unchanged. -/
theorem createWork_spec :
    (∀ (fresh : WorkFresh) (fd : WorkFormData) (db : LedgerDB),
      (¬ blankOpt fd.title = true → ¬ blankOpt fd.intent = true →
        ¬ blankOpt fd.tools = true →
        createWork fresh fd db = (.ok fresh.workId,
          { works := db.works ++ [⟨fresh.workId, jsTrim (fd.title.getD ""), fresh.now⟩]
            declarations := db.declarations ++ [⟨fresh.declId, fresh.workId, fresh.now,
              jsTrim (fd.intent.getD ""), jsTrim (fd.tools.getD ""),
              fd.aiUsed == some "true", normOpt fd.contributors⟩]
            revisions := db.revisions
            audioRefs := db.audioRefs ++ newAudioRefs fresh fd })) ∧
      ((blankOpt fd.title = true ∨ blankOpt fd.intent = true ∨ blankOpt fd.tools = true) →
        ∃ m, createWork fresh fd db = (.error m, db))) ∧
    (∀ (fresh : WorkFresh) (fd : WorkFormData),
      (newAudioRefs fresh fd).length = (fd.audioFiles.filter (fun f => f.size > 0)).length ∧
      ∀ (i : ℕ) (h1 : i < (newAudioRefs fresh fd).length)
        (h2 : i < (fd.audioFiles.filter (fun f => f.size > 0)).length),
        ((newAudioRefs fresh fd).get ⟨i, h1⟩).fileName =
          ((fd.audioFiles.filter (fun f => f.size > 0)).get ⟨i, h2⟩).name ∧
        ((newAudioRefs fresh fd).get ⟨i, h1⟩).sha256 =
          computeSha256 ((fd.audioFiles.filter (fun f => f.size > 0)).get ⟨i, h2⟩).bytes ∧
        ((newAudioRefs fresh fd).get ⟨i, h1⟩).declarationId = fresh.declId) ∧
    (∀ bytes : List ℕ, (computeSha256 bytes).length = 64 ∧
      ∀ ch ∈ (computeSha256 bytes).data, ch ∈ hexChars) := by
  refine ⟨?_, ?_, fun bytes => ⟨computeSha256_length bytes, computeSha256_hexlower bytes⟩⟩
  · intro fresh fd db
    constructor
    · intro h1 h2 h3
      unfold createWork newAudioRefs
      rw [if_neg h1, if_neg h2, if_neg h3]
    · intro h
      unfold createWork
      by_cases hb1 : blankOpt fd.title = true
      · rw [if_pos hb1]; exact ⟨_, rfl⟩
      by_cases hb2 : blankOpt fd.intent = true
      · rw [if_neg hb1, if_pos hb2]; exact ⟨_, rfl⟩
      have hb3 : blankOpt fd.tools = true := by tauto
      rw [if_neg hb1, if_neg hb2, if_pos hb3]; exact ⟨_, rfl⟩
  · intro fresh fd
    constructor
    · simp [newAudioRefs]
    · intro i h1 h2
      simp [newAudioRefs, List.get_eq_getElem, List.getElem_enum]

/-- Witness for C3: one nonzero file and one empty file. -/
theorem createWork_spec_witness :
    (¬ blankOpt (some " My Song ") = true ∧ ¬ blankOpt (some "intent") = true ∧
      ¬ blankOpt (some "tools") = true) ∧
    createWork ⟨"w1", "d1", fun i => "a" ++ toString i, 7⟩
        ⟨some " My Song ", some "intent", some "tools", some "true", none,
          [⟨"song.wav", 3, [1, 2, 3]⟩, ⟨"empty.wav", 0, []⟩]⟩
        ⟨[], [], [], []⟩ =
      (.ok "w1",
        { works := [] ++ [⟨"w1", jsTrim ((some " My Song ").getD ""), 7⟩]
          declarations := [] ++ [⟨"d1", "w1", 7, jsTrim ((some "intent").getD ""),
            jsTrim ((some "tools").getD ""), (some "true" : Option String) == some "true",
            normOpt none⟩]
          revisions := []
          audioRefs := [] ++ newAudioRefs ⟨"w1", "d1", fun i => "a" ++ toString i, 7⟩
            ⟨some " My Song ", some "intent", some "tools", some "true", none,
              [⟨"song.wav", 3, [1, 2, 3]⟩, ⟨"empty.wav", 0, []⟩]⟩ }) :=
  ⟨⟨by decide, by decide, by decide⟩,
   ((createWork_spec.1 ⟨"w1", "d1", fun i => "a" ++ toString i, 7⟩
      ⟨some " My Song ", some "intent", some "tools", some "true", none,
        [⟨"song.wav", 3, [1, 2, 3]⟩, ⟨"empty.wav", 0, []⟩]⟩
      ⟨[], [], [], []⟩).1 (by decide) (by decide) (by decide))⟩

/-- One `createRevision` call either leaves the state unchanged or appends
exactly one revision row; no other table is touched. -/
theorem createRevision_shape (fresh : RevFresh) (fd : RevisionFormData) (db : LedgerDB) :
    ∃ s, (createRevision fresh fd db).2 = { db with revisions := db.revisions ++ s } := by
  unfold createRevision
  by_cases h1 : ¬ strTruthy fd.declarationId = true
  · refine ⟨[], ?_⟩
    rw [if_pos h1]
    simp
  rw [if_neg h1]
  by_cases h2 : blankOpt fd.changeNote = true
  · refine ⟨[], ?_⟩
    rw [if_pos h2]
    simp
  rw [if_neg h2]
  cases hf : db.declarations.find? (fun d => d.id == fd.declarationId.getD "") with
  | none =>
      refine ⟨[], ?_⟩
      simp [hf]
  | some d =>
      exact ⟨[DeclarationRevision.mk fresh.revId (fd.declarationId.getD "") fresh.now
        (jsTrim (fd.changeNote.getD "")) (normOpt fd.intent) (normOpt fd.tools)
        (if fd.aiUsed == some "true" then some true
         else if fd.aiUsed == some "false" then some false else none)
        (normOpt fd.contributors)], by simp only [hf]⟩

/-- A sequence of `createRevision` calls only ever appends revision rows. -/
theorem applyRevisions_shape (ops : List (RevFresh × RevisionFormData)) (db : LedgerDB) :
    ∃ s, applyRevisions ops db = { db with revisions := db.revisions ++ s } := by
  induction ops generalizing db with
  | nil =>
      refine ⟨[], ?_⟩
      show db = _
      simp
  | cons op rest ih =>
      obtain ⟨s1, h1⟩ := createRevision_shape op.1 op.2 db
      obtain ⟨s2, h2⟩ := ih ((createRevision op.1 op.2 db).2)
      refine ⟨s1 ++ s2, ?_⟩
      have hstep : applyRevisions (op :: rest) db
          = applyRevisions rest ((createRevision op.1 op.2 db).2) := rfl
      rw [hstep, h2, h1]
      simp

/-- C2: under any sequence of `createRevision` calls the declaration table
is untouched, every previously stored revision row survives, re-fetching
the work yields the same work and the same declaration record (intent,
tools, aiUsed, contributors included), every previously fetched revision
still appears, and the fetched revision list is sorted by creation time,
oldest first. -/
theorem append_only_spec :
    ∀ (db : LedgerDB) (ops : List (RevFresh × RevisionFormData)) (id : String)
      (wv wv' : WorkView),
      getWork db id = some wv →
      getWork (applyRevisions ops db) id = some wv' →
      (applyRevisions ops db).declarations = db.declarations ∧
      (∀ r ∈ db.revisions, r ∈ (applyRevisions ops db).revisions) ∧
      wv'.work = wv.work ∧
      wv'.declaration.map (fun t => t.1) = wv.declaration.map (fun t => t.1) ∧
      (∀ d rs as, wv.declaration = some (d, rs, as) →
        ∀ d' rs' as', wv'.declaration = some (d', rs', as') →
          ∀ r ∈ rs, r ∈ rs') ∧
      (∀ d' rs' as', wv'.declaration = some (d', rs', as') → rs'.Sorted revLE) := by
  intro db ops id wv wv' h h'
  obtain ⟨s, hs⟩ := applyRevisions_shape ops db
  have hdecl : (applyRevisions ops db).declarations = db.declarations := by rw [hs]
  have hworks : (applyRevisions ops db).works = db.works := by rw [hs]
  have hrev : (applyRevisions ops db).revisions = db.revisions ++ s := by rw [hs]
  have haud : (applyRevisions ops db).audioRefs = db.audioRefs := by rw [hs]
  have hmem : ∀ r ∈ db.revisions, r ∈ (applyRevisions ops db).revisions := by
    rw [hrev]
    exact fun r hr => List.mem_append_left _ hr
  unfold getWork at h h'
  rw [hworks, hdecl, hrev, haud] at h'
  cases hfw : db.works.find? (fun w => w.id == id) with
  | none =>
      rw [hfw] at h
      exact absurd h (by simp)
  | some w =>
      rw [hfw] at h h'
      dsimp only [] at h h'
      cases hfd : db.declarations.find? (fun d => d.workId == w.id) with
      | none =>
          rw [hfd] at h h'
          simp only [Option.some.injEq] at h h'
          subst h
          subst h'
          refine ⟨hdecl, hmem, rfl, rfl, ?_, ?_⟩
          · intro d rs as hbad
            simp at hbad
          · intro d' rs' as' hbad
            simp at hbad
      | some d =>
          rw [hfd] at h h'
          simp only [Option.some.injEq] at h h'
          subst h
          subst h'
          refine ⟨hdecl, hmem, rfl, rfl, ?_, ?_⟩
          · intro d0 rs as hd0 d1 rs' as' hd1 r hr
            simp only [Option.some.injEq, Prod.mk.injEq] at hd0 hd1
            obtain ⟨hd0d, hd0rs, hd0as⟩ := hd0
            obtain ⟨hd1d, hd1rs, hd1as⟩ := hd1
            subst hd0d; subst hd0rs; subst hd1d; subst hd1rs
            have h1 : r ∈ db.revisions.filter (fun x => x.declarationId == d.id) :=
              (List.perm_insertionSort revLE _).mem_iff.mp hr
            have h2 : r ∈ (db.revisions ++ s).filter (fun x => x.declarationId == d.id) := by
              rw [List.filter_append]
              exact List.mem_append_left _ h1
            exact (List.perm_insertionSort revLE _).mem_iff.mpr h2
          · intro d' rs' as' hd'
            simp only [Option.some.injEq, Prod.mk.injEq] at hd'
            obtain ⟨hd, hrs, has⟩ := hd'
            subst hrs
            exact List.sorted_insertionSort revLE _

/-- A one-work ledger used by the C2 witness. -/
def dbW : LedgerDB :=
  ⟨[⟨"w1", "T", 0⟩], [⟨"d1", "w1", 0, "i", "t", false, none⟩], [], []⟩

/-- One revision call used by the C2 witness. -/
def opsW : List (RevFresh × RevisionFormData) :=
  [(⟨"r1", 5⟩, ⟨some "d1", some "note", none, none, none, none⟩)]

/-- The fetched view before the revision sequence. -/
def wvA : WorkView :=
  ⟨⟨"w1", "T", 0⟩, some (⟨"d1", "w1", 0, "i", "t", false, none⟩, [], [])⟩

/-- The fetched view after the revision sequence. -/
def wvB : WorkView :=
  ⟨⟨"w1", "T", 0⟩, some (⟨"d1", "w1", 0, "i", "t", false, none⟩,
    [⟨"r1", "d1", 5, "note", none, none, none, none⟩], [])⟩

/-- Witness for C2: one work, one declaration, one appended revision. -/
theorem append_only_spec_witness :
    getWork dbW "w1" = some wvA ∧
    getWork (applyRevisions opsW dbW) "w1" = some wvB ∧
    ((applyRevisions opsW dbW).declarations = dbW.declarations ∧
     (∀ r ∈ dbW.revisions, r ∈ (applyRevisions opsW dbW).revisions) ∧
     wvB.work = wvA.work ∧
     wvB.declaration.map (fun t => t.1) = wvA.declaration.map (fun t => t.1) ∧
     (∀ d rs as, wvA.declaration = some (d, rs, as) →
       ∀ d' rs' as', wvB.declaration = some (d', rs', as') →
         ∀ r ∈ rs, r ∈ rs') ∧
     (∀ d' rs' as', wvB.declaration = some (d', rs', as') → rs'.Sorted revLE)) :=
  ⟨rfl, rfl, append_only_spec dbW opsW "w1" wvA wvB rfl rfl⟩

end CTAD
